import Mathlib

/-!
Verification of the SteamRecProject content-based recommender.

The development shallowly embeds the two core modules:

* `src/recommender/content_based.py` (`ContentBasedRecommender`): the loaded
  engine state, candidate retrieval, genre filtering, review-based re-ranking
  and the two public entry points.  Real-valued csv data is modelled over `ℚ`.
  The sklearn `NearestNeighbors` model fitted in `__init__` is external
  library code; it is represented by the `knnQuery` function field of the
  engine state (the fitted model held in `self.model`), constrained where a
  claim needs its contract (distinct in-range row indices).  `np.log10` is
  likewise external and real-valued; it enters only as the constructor
  parameter `log10f`, applied exactly where the source applies `np.log10`.
  Python's `list.sort(key=..., reverse=True)` is a stable descending sort;
  it is modelled by insertion sort with the reflexive "greater or equal
  overall_score" relation, which produces the same (unique) stable result.

* `src/data/build_game_features.py` (`main`): the review-merge and Bayesian
  smoothing stage, the numeric-column synthesis and standardization stage
  (sklearn `StandardScaler`, population statistics, zero-variance columns
  scaled by 1), the multi-label indicator encoding with rare-tag pruning,
  the block weights and the final horizontal concatenation.
-/

namespace SteamRec

/-- Python's `str.split(sep)` on a one-character separator: split at every
occurrence, keeping empty segments (`"".split(";") == [""]`). -/
def splitChar (sep : Char) : List Char → List (List Char)
  | [] => [[]]
  | c :: cs =>
    match splitChar sep cs, decide (c = sep) with
    | r, true => [] :: r
    | [], false => [[c]]
    | g :: gs, false => (c :: g) :: gs

/-- Python's `str.strip()`: drop leading and trailing whitespace. -/
def trimChars (cs : List Char) : List Char :=
  ((cs.dropWhile Char.isWhitespace).reverse.dropWhile Char.isWhitespace).reverse

/-- `_split_semicolon` / `split_semicolon`: split a semicolon-joined string
into trimmed non-empty labels; `None` (NaN) and the empty string give no
labels. -/
def splitSemicolon : Option String → List String
  | none => []
  | some s =>
    ((splitChar ';' s.toList).map (fun g => String.mk (trimChars g))).filter
      (fun t => t ≠ "")

/-- One binding `d[k] = v` on a Python dict modelled as a partial map. -/
def dictInsert {α : Type} (m : Int → Option α) (k : Int) (v : α) : Int → Option α :=
  fun a => if a = k then some v else m a

/-- `{int(a): i for i, a in enumerate(self.appids)}`: appid → row index,
later occurrences overwrite earlier ones. -/
def appidToIndex (appids : List Int) : Int → Option Nat :=
  appids.enum.foldl (fun m p => dictInsert m p.2 p.1) (fun _ => none)

/-- A row of `games_clean.csv` as the recommender reads it: appid, name,
the semicolon-joined genre string (None = NaN cell), and the numeric review
columns (values of `review_score_adj` and `review_total` when the columns
are present). -/
structure GameRow where
  appid : Int
  name : String
  genres : Option String
  score_adj : ℚ
  total : ℚ
deriving DecidableEq

/-- Effective `review_score_adj` of a row: the column value if the csv has
the column, else the constant 0.5 the constructor fills in. -/
def effScore (hasScoreCol : Bool) (g : GameRow) : ℚ :=
  if hasScoreCol then g.score_adj else 1/2

/-- Effective `review_total` of a row: the column value if present, else the
constant 0 the constructor fills in. -/
def effTotal (hasTotalCol : Bool) (g : GameRow) : ℚ :=
  if hasTotalCol then g.total else 0

/-- `review_volume_log = log10(review_total.fillna(0) + 1)`, with `np.log10`
passed in as `log10f` (external real-valued library function). -/
def volLog (log10f : ℚ → ℚ) (hasTotalCol : Bool) (g : GameRow) : ℚ :=
  log10f (effTotal hasTotalCol g + 1)

/-- pandas `.min()` over a column. -/
def listMin : List ℚ → ℚ
  | [] => 0
  | x :: xs => xs.foldl min x

/-- pandas `.max()` over a column. -/
def listMax : List ℚ → ℚ
  | [] => 0
  | x :: xs => xs.foldl max x

/-- `appid -> set of genres` built by iterating over the games table
(later rows with the same appid overwrite earlier ones). -/
def appidToGenres (games : List GameRow) : Int → Option (Finset String) :=
  games.foldl (fun m g => dictInsert m g.appid (splitSemicolon g.genres).toFinset)
    (fun _ => none)

/-- The loaded, read-only engine state: the instance attributes that
`ContentBasedRecommender.__init__` sets up. -/
structure Recommender where
  X : List (List ℚ)
  appids : List Int
  games : List GameRow
  n_neighbors : Nat
  idxOf : Int → Option Nat
  genresOf : Int → Option (Finset String)
  scoreOf : Int → Option ℚ
  volOf : Int → Option ℚ
  score_min : ℚ
  score_max : ℚ
  vol_min : ℚ
  vol_max : ℚ
  knnQuery : List ℚ → Nat → List (ℚ × Nat)
  W_SIM : ℚ
  W_REV : ℚ
  W_VOL : ℚ

/-- `ContentBasedRecommender.__init__`: build all derived maps and the
normalization bounds from the loaded feature bundle (`X`, `appids`) and the
loaded games table; fix the re-ranking weights. -/
def mkRecommender (X : List (List ℚ)) (appids : List Int) (games : List GameRow)
    (hasScoreCol hasTotalCol : Bool) (log10f : ℚ → ℚ)
    (knn : List ℚ → Nat → List (ℚ × Nat)) (k : Nat) : Recommender where
  X := X
  appids := appids
  games := games
  n_neighbors := k
  idxOf := appidToIndex appids
  genresOf := appidToGenres games
  scoreOf := games.foldl (fun m g => dictInsert m g.appid (effScore hasScoreCol g))
    (fun _ => none)
  volOf := games.foldl (fun m g => dictInsert m g.appid (volLog log10f hasTotalCol g))
    (fun _ => none)
  score_min := listMin (games.map (effScore hasScoreCol))
  score_max := listMax (games.map (effScore hasScoreCol))
  vol_min := listMin (games.map (volLog log10f hasTotalCol))
  vol_max := listMax (games.map (volLog log10f hasTotalCol))
  knnQuery := knn
  W_SIM := 3
  W_REV := 4/5
  W_VOL := 9/10

/-- `_get_review_score`: dict lookup with default 0.5. -/
def Recommender.getScore (r : Recommender) (a : Int) : ℚ :=
  (r.scoreOf a).getD (1/2)

/-- `_get_review_volume_log`: dict lookup with default 0.0. -/
def Recommender.getVol (r : Recommender) (a : Int) : ℚ :=
  (r.volOf a).getD 0

/-- `_lookup_name`: first games row with this appid, else "". -/
def Recommender.lookupName (r : Recommender) (a : Int) : String :=
  ((r.games.find? (fun g => g.appid = a)).map GameRow.name).getD ""

/-- `_normalize(value, vmin, vmax, default)`. -/
def normalize (value vmin vmax dflt : ℚ) : ℚ :=
  if vmax ≤ vmin then dflt else (value - vmin) / (vmax - vmin)

/-- `_compute_overall_score(similarity, appid)`. -/
def Recommender.computeOverallScore (r : Recommender) (similarity : ℚ) (a : Int) : ℚ :=
  r.W_SIM * similarity
    + r.W_REV * normalize (r.getScore a) r.score_min r.score_max (1/2)
    + r.W_VOL * normalize (r.getVol a) r.vol_min r.vol_max 0

/-- One per-query candidate record, as appended to `candidates`. -/
structure Candidate where
  appid : Int
  name : String
  distance : ℚ
  similarity : ℚ
  score_adj : ℚ
  vol_log : ℚ
  overall_score : ℚ
deriving DecidableEq

/-- Build the candidate record for neighbour `(dist, appid)`:
`similarity = 1.0 - dist` and the overall score from
`_compute_overall_score`. -/
def Recommender.mkCand (r : Recommender) (dist : ℚ) (a : Int) : Candidate :=
  { appid := a
    name := r.lookupName a
    distance := dist
    similarity := 1 - dist
    score_adj := r.getScore a
    vol_log := r.getVol a
    overall_score := r.computeOverallScore (1 - dist) a }

/-- The GenreFilter keep-predicate as the source applies it:
skip a candidate iff the reference set is non-empty and shares no label
with the candidate set (`if ref_genres and not (ref_genres & cand_genres):
continue`). -/
def genreKeep (ref cand : Finset String) : Bool :=
  !(decide ref.Nonempty && decide (ref ∩ cand = ∅))

/-- Python's descending comparison on overall scores used by
`candidates.sort(key=lambda x: x["overall_score"], reverse=True)`. -/
def candGe (a b : Candidate) : Prop :=
  b.overall_score ≤ a.overall_score

instance : DecidableRel candGe := fun a b =>
  inferInstanceAs (Decidable (b.overall_score ≤ a.overall_score))

instance : IsTotal Candidate candGe :=
  ⟨fun a b => le_total b.overall_score a.overall_score⟩

instance : IsTrans Candidate candGe :=
  ⟨fun _ _ _ h h' => le_trans h' h⟩

/-- The stable descending sort performed by `candidates.sort(...,
reverse=True)`. -/
def sortDesc (l : List Candidate) : List Candidate :=
  l.insertionSort candGe

/-- The loop body of `recommend_similar_by_appid`: skip the seed itself when
`exclude_self`, apply the genre filter, otherwise produce the candidate. -/
def Recommender.similarStep (r : Recommender) (appid : Int) (refGenres : Finset String)
    (exclude_self : Bool) (p : ℚ × Nat) : Option Candidate :=
  let rec_appid := r.appids.getD p.2 0
  if exclude_self = true ∧ rec_appid = appid then none
  else
    let cand_genres := (r.genresOf rec_appid).getD ∅
    if ¬ genreKeep refGenres cand_genres then none
    else some (r.mkCand p.1 rec_appid)

/-- The neighbour pool `zip(distances, indices)` that
`recommend_similar_by_appid` retrieves for the seed's own row vector. -/
def Recommender.similarNeighbors (r : Recommender) (appid : Int) : List (ℚ × Nat) :=
  match r.idxOf appid with
  | none => []
  | some idx => r.knnQuery (r.X.getD idx []) r.n_neighbors

/-- The surviving candidate list of `recommend_similar_by_appid` before
sorting and truncation. -/
def Recommender.similarSurvivors (r : Recommender) (appid : Int)
    (exclude_self : Bool) : List Candidate :=
  (r.similarNeighbors appid).filterMap
    (r.similarStep appid ((r.genresOf appid).getD ∅) exclude_self)

/-- `recommend_similar_by_appid(appid, top_n, exclude_self)`. -/
def Recommender.recommendSimilar (r : Recommender) (appid : Int) (top_n : Nat)
    (exclude_self : Bool) : Except String (List Candidate) :=
  match r.idxOf appid with
  | none => .error s!"Unknown appid: {appid}"
  | some _ => .ok ((sortDesc (r.similarSurvivors appid exclude_self)).take top_n)

/-- `[i for i in indices if i is not None]` where
`indices = [self._get_index_for_appid(a) for a in liked_appids]`. -/
def Recommender.resolvedIndices (r : Recommender) (liked : List Int) : List Nat :=
  (liked.map r.idxOf).filterMap id

/-- Elementwise sum of two feature vectors. -/
def vecAdd (u v : List ℚ) : List ℚ :=
  List.zipWith (· + ·) u v

/-- `X[indices].mean(axis=0)`. -/
def meanVec (rows : List (List ℚ)) : List ℚ :=
  match rows with
  | [] => []
  | v :: vs => (vs.foldl vecAdd v).map (fun x => x / (rows.length : ℚ))

/-- The user's taste vector: mean of the resolved rows. -/
def Recommender.userVec (r : Recommender) (liked : List Int) : List ℚ :=
  meanVec ((r.resolvedIndices liked).map (fun i => r.X.getD i []))

/-- The union-of-genres loop of `recommend_for_liked_appids`: it runs over
ALL liked appids, resolved or not. -/
def Recommender.likedGenresUnion (r : Recommender) (liked : List Int) : Finset String :=
  liked.foldl (fun acc a => acc ∪ (r.genresOf a).getD ∅) ∅

/-- The neighbour pool retrieved for the taste vector. -/
def Recommender.likedNeighbors (r : Recommender) (liked : List Int) : List (ℚ × Nat) :=
  r.knnQuery (r.userVec liked) r.n_neighbors

/-- The loop body of `recommend_for_liked_appids`: skip candidates the user
already likes, apply the genre filter, otherwise produce the candidate. -/
def Recommender.likedStep (r : Recommender) (liked : List Int) (refGenres : Finset String)
    (p : ℚ × Nat) : Option Candidate :=
  let rec_appid := r.appids.getD p.2 0
  if rec_appid ∈ liked then none
  else
    let cand_genres := (r.genresOf rec_appid).getD ∅
    if ¬ genreKeep refGenres cand_genres then none
    else some (r.mkCand p.1 rec_appid)

/-- The surviving candidate list of `recommend_for_liked_appids` before
sorting and truncation. -/
def Recommender.likedSurvivors (r : Recommender) (liked : List Int) : List Candidate :=
  (r.likedNeighbors liked).filterMap (r.likedStep liked (r.likedGenresUnion liked))

/-- `recommend_for_liked_appids(liked_appids, top_n)`. -/
def Recommender.recommendForLiked (r : Recommender) (liked : List Int)
    (top_n : Nat) : Except String (List Candidate) :=
  if (r.resolvedIndices liked).isEmpty then
    .error "None of the liked appids were found in the feature matrix."
  else
    .ok ((sortDesc (r.likedSurvivors liked)).take top_n)

/-! ## FeatureBuilder (`src/data/build_game_features.py`) -/

/-- A row of the review summary table (`reviews_summary.csv`); the ratio
column holds `review_ratio`. -/
structure ReviewRow where
  appid : Int
  positive : ℚ
  negative : ℚ
  total : ℚ
  share : ℚ
deriving DecidableEq

/-- The left-merge `games.merge(reviews, on="appid", how="left")` row
lookup (the review table has one row per appid). -/
def findReview (reviews : List ReviewRow) (a : Int) : Option ReviewRow :=
  reviews.find? (fun rr => rr.appid = a)

/-- `review_total` after the merge and `fillna(0)`. -/
def mergedTotal (reviews : List ReviewRow) (a : Int) : ℚ :=
  ((findReview reviews a).map ReviewRow.total).getD 0

/-- `review_ratio` after the merge and `fillna(0.5)`. -/
def mergedShare (reviews : List ReviewRow) (a : Int) : ℚ :=
  ((findReview reviews a).map ReviewRow.share).getD (1/2)

/-- `review_positive` after the merge (only ever summed over items that have
reviews, so the fill value is irrelevant). -/
def mergedPositive (reviews : List ReviewRow) (a : Int) : ℚ :=
  ((findReview reviews a).map ReviewRow.positive).getD 0

/-- `global_mean_ratio`: the positive share over all items that have at
least one review, 0.5 when no item has any. -/
def globalMean (games : List Int) (reviews : List ReviewRow) : ℚ :=
  let withReviews := games.filter (fun a => 0 < mergedTotal reviews a)
  if withReviews.isEmpty then 1/2
  else
    let totalPos := (withReviews.map (mergedPositive reviews)).sum
    let totalRev := (withReviews.map (mergedTotal reviews)).sum
    if 0 < totalRev then totalPos / totalRev else 1/2

/-- The Bayesian prior strength `m = 500.0`. -/
def PRIOR_M : ℚ := 500

/-- `review_score_adj = (n/(n+m))*r + (m/(n+m))*global_mean_ratio` with
`n = review_total` and `r = review_ratio` after the merge. -/
def reviewScoreAdj (games : List Int) (reviews : List ReviewRow) (a : Int) : ℚ :=
  let n := mergedTotal reviews a
  let r := mergedShare reviews a
  (n / (n + PRIOR_M)) * r + (PRIOR_M / (n + PRIOR_M)) * globalMean games reviews

/-- A raw catalog row as the numeric/label stages of the builder see it
(after the game-type filter and derived-column steps): the numeric cell
values (`none` = NaN) and the three label strings. -/
structure RawGame where
  appid : Int
  numval : String → Option ℚ
  genres : Option String
  categories : Option String
  tags : Option String

/-- The builder's working DataFrame: its rows plus the set of numeric
columns the frame actually has. -/
structure RawTable where
  rows : List RawGame
  presentCols : List String

/-- The configured numeric feature columns (`numeric_cols`). -/
def numericCols : List String :=
  ["price_eur", "metacritic_score", "release_year", "required_age",
   "is_free", "review_score_adj", "review_volume_log"]

/-- One numeric column of the frame: the cell values with `fillna(0)` when
the column is present, an all-zero column synthesized by
`games[col] = 0` when it is absent. -/
def rawCol (t : RawTable) (c : String) : List ℚ :=
  if c ∈ t.presentCols then t.rows.map (fun g => (g.numval c).getD 0)
  else t.rows.map (fun _ => 0)

/-- Column mean over the entire catalog. -/
def colMean (xs : List ℚ) : ℚ :=
  xs.sum / (xs.length : ℚ)

/-- Population variance over the entire catalog (`StandardScaler` uses
`ddof = 0`). -/
def popVar (xs : List ℚ) : ℚ :=
  (xs.map (fun x => (x - colMean xs) ^ 2)).sum / (xs.length : ℚ)

/-- The embedding of the rational csv values into the reals. -/
noncomputable def qr (q : ℚ) : ℝ := (q : ℝ)

/-- Population standard deviation. -/
noncomputable def popStd (xs : List ℚ) : ℝ :=
  Real.sqrt (popVar xs)

/-- `StandardScaler`'s division scale: the standard deviation, with zeros
replaced by 1 (`_handle_zeros_in_scale`). -/
noncomputable def stdScale (xs : List ℚ) : ℝ :=
  if popStd xs = 0 then 1 else popStd xs

/-- `StandardScaler.fit_transform` on one column: subtract the column mean,
divide by the column scale. -/
noncomputable def standardize (xs : List ℚ) : List ℝ :=
  xs.map (fun x => (qr x - qr (colMean xs)) / stdScale xs)

/-- `NUMERIC_BASE = 1.0`. -/
def NUMERIC_BASE : ℚ := 1

/-- `GENRE_WEIGHT = 1.2`. -/
def GENRE_WEIGHT : ℚ := 6/5

/-- `TAG_WEIGHT = 4.0`. -/
def TAG_WEIGHT : ℚ := 4

/-- `CAT_WEIGHT = 1.2`. -/
def CAT_WEIGHT : ℚ := 6/5

/-- `min_tag_games = 10`. -/
def MIN_TAG_GAMES : Nat := 10

/-- The per-feature multiplier applied to the standardized numeric matrix:
the base weight for every column, then ×2.0 on `review_score_adj` and
×1.5 on `review_volume_log`. -/
def numWeight (c : String) : ℚ :=
  NUMERIC_BASE * (if c = "review_score_adj" then 2
    else if c = "review_volume_log" then 3/2 else 1)

/-- One weighted standardized numeric column. -/
noncomputable def numericColW (t : RawTable) (c : String) : List ℝ :=
  (standardize (rawCol t c)).map (fun x => qr (numWeight c) * x)

/-- The weighted standardized numeric block, row-major
(`scaler.fit_transform(games[numeric_cols].values)` with the per-feature
weights applied). -/
noncomputable def numericMatrix (t : RawTable) : List (List ℝ) :=
  (List.range t.rows.length).map (fun i =>
    numericCols.map (fun c => (numericColW t c).getD i 0))

/-- Lexicographic code-point comparison of two character lists (the string
order numpy sorts label vocabularies by). -/
def charsLe : List Char → List Char → Bool
  | [], _ => true
  | _ :: _, [] => false
  | a :: as, b :: bs => if a = b then charsLe as bs else decide (a < b)

/-- The string order used to sort a label vocabulary. -/
def strLe (a b : String) : Prop :=
  charsLe a.toList b.toList = true

instance : DecidableRel strLe := fun a b =>
  inferInstanceAs (Decidable (charsLe a.toList b.toList = true))

/-- `MultiLabelBinarizer.classes_`: the sorted deduplicated label
vocabulary discovered across the catalog. -/
def mlbClasses (ls : List (List String)) : List String :=
  (ls.flatten.dedup).insertionSort strLe

/-- One indicator row over a vocabulary. -/
def indicator (vocab labels : List String) : List ℚ :=
  vocab.map (fun v => if v ∈ labels then 1 else 0)

/-- `games["genres_list"]`. -/
def genresLists (t : RawTable) : List (List String) :=
  t.rows.map (fun g => splitSemicolon g.genres)

/-- `games["categories_list"]`. -/
def catsLists (t : RawTable) : List (List String) :=
  t.rows.map (fun g => splitSemicolon g.categories)

/-- `games["tags_list"]` (the tags column is filled with "" when absent, so
every row yields a label list). -/
def tagsLists (t : RawTable) : List (List String) :=
  t.rows.map (fun g => splitSemicolon g.tags)

/-- The genre vocabulary of this build. -/
def genreVocab (t : RawTable) : List String :=
  mlbClasses (genresLists t)

/-- The category vocabulary of this build. -/
def catVocab (t : RawTable) : List String :=
  mlbClasses (catsLists t)

/-- The full tag vocabulary before rare-tag pruning. -/
def tagVocabAll (t : RawTable) : List String :=
  mlbClasses (tagsLists t)

/-- A tag's support: the column sum of its indicator column, i.e. the
number of games carrying the tag. -/
def tagSupport (t : RawTable) (v : String) : Nat :=
  ((tagsLists t).filter (fun ls => v ∈ ls)).length

/-- The kept tag vocabulary: dropping the indicator columns whose support
is below `min_tag_games` keeps exactly the tags with support ≥ 10, in
vocabulary order. -/
def tagVocab (t : RawTable) : List String :=
  (tagVocabAll t).filter (fun v => MIN_TAG_GAMES ≤ tagSupport t v)

/-- The weighted genre indicator block. -/
def genreMatrix (t : RawTable) : List (List ℚ) :=
  (genresLists t).map (fun ls => (indicator (genreVocab t) ls).map (fun x => GENRE_WEIGHT * x))

/-- The weighted pruned tag indicator block. -/
def tagMatrix (t : RawTable) : List (List ℚ) :=
  (tagsLists t).map (fun ls => (indicator (tagVocab t) ls).map (fun x => TAG_WEIGHT * x))

/-- The weighted category indicator block. -/
def catMatrix (t : RawTable) : List (List ℚ) :=
  (catsLists t).map (fun ls => (indicator (catVocab t) ls).map (fun x => CAT_WEIGHT * x))

/-- `feature_names`: numeric names, then prefixed genre, tag and category
vocabularies, in block order. -/
def featureNames (t : RawTable) : List String :=
  numericCols ++ (genreVocab t).map (fun g => "genre_" ++ g)
    ++ (tagVocab t).map (fun g => "tag_" ++ g)
    ++ (catVocab t).map (fun c => "cat_" ++ c)

/-- The saved appid array: the `appid` column in row order. -/
def appidOrder (t : RawTable) : List Int :=
  t.rows.map RawGame.appid

/-- `X = np.hstack([numeric_matrix, genres_matrix, tags_matrix,
cats_matrix])`. -/
noncomputable def buildX (t : RawTable) : List (List ℝ) :=
  (List.range t.rows.length).map (fun i =>
    (numericMatrix t).getD i []
      ++ ((genreMatrix t).getD i []).map qr
      ++ ((tagMatrix t).getD i []).map qr
      ++ ((catMatrix t).getD i []).map qr)

/-! ## Example loaded states used by the witnesses -/

/-- An example games row: appid 1, genre "Action". -/
def gA : GameRow := ⟨1, "Alpha", some "Action", 1/2, 0⟩

/-- An example games row: appid 2, genres "Action;Indie". -/
def gB : GameRow := ⟨2, "Beta", some "Action;Indie", 1/2, 0⟩

/-- An example games row: appid 5, genre "Puzzle". -/
def gC : GameRow := ⟨5, "Gamma", some "Puzzle", 1/2, 0⟩

/-- An example loaded engine over two items. -/
def rEx : Recommender :=
  mkRecommender [[1, 0], [0, 1]] [1, 2] [gA, gB] true true (fun _ => 0)
    (fun _ _ => [(0, 0), (1/3, 1)]) 2

/-- The candidate the example engine produces for a `recommend_similar`
query on appid 1. -/
def candEx : Candidate := ⟨2, "Beta", 1/3, 2/3, 1/2, 0, 12/5⟩

/-- An example engine whose games table has a row (appid 5) that is absent
from the loaded feature matrix (`appids = [1, 2]`). -/
def rEx2 : Recommender :=
  mkRecommender [[1, 0], [0, 1]] [1, 2] [gA, gB, gC] true true (fun _ => 0)
    (fun _ _ => [(0, 0), (1/3, 1)]) 2

/-! ## Helper lemmas -/

theorem genreKeep_iff (ref cand : Finset String) :
    genreKeep ref cand = true ↔ ref = ∅ ∨ (ref ∩ cand).Nonempty := by
  simp [genreKeep, not_and_or, Finset.not_nonempty_iff_eq_empty,
    ← Finset.nonempty_iff_ne_empty]

theorem mem_sortDesc {c : Candidate} {l : List Candidate} :
    c ∈ sortDesc l ↔ c ∈ l :=
  (List.perm_insertionSort candGe l).mem_iff

theorem mem_of_mem_take_sortDesc {c : Candidate} {l : List Candidate} {n : Nat}
    (h : c ∈ (sortDesc l).take n) : c ∈ l :=
  mem_sortDesc.mp (List.take_subset n (sortDesc l) h)

theorem similarStep_eq_some {r : Recommender} {ap : Int} {refG : Finset String}
    {es : Bool} {p : ℚ × Nat} {c : Candidate} :
    r.similarStep ap refG es p = some c ↔
      ¬(es = true ∧ r.appids.getD p.2 0 = ap)
      ∧ genreKeep refG ((r.genresOf (r.appids.getD p.2 0)).getD ∅) = true
      ∧ c = r.mkCand p.1 (r.appids.getD p.2 0) := by
  simp only [Recommender.similarStep]
  split_ifs with h1 h2
  · exact iff_of_false (by simp) (fun h => h.1 h1)
  · constructor
    · intro h
      exact ⟨h1, h2, (Option.some.inj h).symm⟩
    · intro h
      rw [h.2.2]
  · exact iff_of_false (by simp) (fun h => h2 h.2.1)

theorem likedStep_eq_some {r : Recommender} {liked : List Int} {refG : Finset String}
    {p : ℚ × Nat} {c : Candidate} :
    r.likedStep liked refG p = some c ↔
      r.appids.getD p.2 0 ∉ liked
      ∧ genreKeep refG ((r.genresOf (r.appids.getD p.2 0)).getD ∅) = true
      ∧ c = r.mkCand p.1 (r.appids.getD p.2 0) := by
  simp only [Recommender.likedStep]
  split_ifs with h1 h2
  · exact iff_of_false (by simp) (fun h => h.1 h1)
  · constructor
    · intro h
      exact ⟨h1, h2, (Option.some.inj h).symm⟩
    · intro h
      rw [h.2.2]
  · exact iff_of_false (by simp) (fun h => h2 h.2.1)

theorem mem_similarSurvivors {r : Recommender} {ap : Int} {es : Bool} {c : Candidate} :
    c ∈ r.similarSurvivors ap es ↔
      ∃ p ∈ r.similarNeighbors ap,
        ¬(es = true ∧ r.appids.getD p.2 0 = ap)
        ∧ genreKeep ((r.genresOf ap).getD ∅) ((r.genresOf (r.appids.getD p.2 0)).getD ∅) = true
        ∧ c = r.mkCand p.1 (r.appids.getD p.2 0) := by
  simp only [Recommender.similarSurvivors, List.mem_filterMap, similarStep_eq_some]

theorem mem_likedSurvivors {r : Recommender} {liked : List Int} {c : Candidate} :
    c ∈ r.likedSurvivors liked ↔
      ∃ p ∈ r.likedNeighbors liked,
        r.appids.getD p.2 0 ∉ liked
        ∧ genreKeep (r.likedGenresUnion liked) ((r.genresOf (r.appids.getD p.2 0)).getD ∅) = true
        ∧ c = r.mkCand p.1 (r.appids.getD p.2 0) := by
  simp only [Recommender.likedSurvivors, List.mem_filterMap, likedStep_eq_some]

theorem recommendSimilar_ok {r : Recommender} {ap : Int} {tn : Nat} {es : Bool}
    {res : List Candidate} (h : r.recommendSimilar ap tn es = .ok res) :
    res = (sortDesc (r.similarSurvivors ap es)).take tn := by
  unfold Recommender.recommendSimilar at h
  cases hidx : r.idxOf ap
  · rw [hidx] at h
    exact absurd h (by simp)
  · rw [hidx] at h
    exact (Except.ok.inj h).symm

theorem recommendForLiked_ok {r : Recommender} {liked : List Int} {tn : Nat}
    {res : List Candidate} (h : r.recommendForLiked liked tn = .ok res) :
    res = (sortDesc (r.likedSurvivors liked)).take tn := by
  unfold Recommender.recommendForLiked at h
  split_ifs at h
  exact (Except.ok.inj h).symm

/-- Concrete evaluation of a `recommend_similar` query on the example
engine. -/
theorem rEx_similar_eval : rEx.recommendSimilar 1 5 true = .ok [candEx] := by
  norm_num [rEx, gA, gB, candEx, mkRecommender, Recommender.recommendSimilar,
    Recommender.similarSurvivors, Recommender.similarNeighbors, Recommender.similarStep,
    Recommender.mkCand, Recommender.computeOverallScore, Recommender.getScore,
    Recommender.getVol, Recommender.lookupName, appidToIndex, appidToGenres, dictInsert,
    splitSemicolon, genreKeep, normalize, listMin, listMax, effScore, effTotal, volLog,
    sortDesc, List.insertionSort, List.orderedInsert, candGe,
    List.enum, List.enumFrom, List.foldl, List.filterMap, List.find?, List.map]

/-- Concrete evaluation of a `recommend_for_liked` query on the example
engine. -/
theorem rEx_liked_eval : rEx.recommendForLiked [1] 5 = .ok [candEx] := by
  norm_num [rEx, gA, gB, candEx, mkRecommender, Recommender.recommendForLiked,
    Recommender.likedSurvivors, Recommender.likedNeighbors, Recommender.likedStep,
    Recommender.likedGenresUnion, Recommender.resolvedIndices, Recommender.userVec,
    meanVec, vecAdd, Recommender.mkCand, Recommender.computeOverallScore,
    Recommender.getScore, Recommender.getVol, Recommender.lookupName, appidToIndex,
    appidToGenres, dictInsert, splitSemicolon, genreKeep, normalize, listMin, listMax,
    effScore, effTotal, volLog, sortDesc, List.insertionSort, List.orderedInsert, candGe,
    List.enum, List.enumFrom, List.foldl, List.filterMap, List.find?, List.map]

/-! ## Claims -/

/-- C1: `recommend_similar(appid, top_n, exclude_self=true)` never includes
`appid` in its result, and `recommend_for_liked(liked_appids, top_n)` never
includes any id from `liked_appids` (resolved or unresolved) in its
result. -/
theorem c1_no_seed_in_results (r : Recommender) (appid : Int) (liked : List Int)
    (top_n : Nat) (res res' : List Candidate) :
    (r.recommendSimilar appid top_n true = .ok res → ∀ c ∈ res, c.appid ≠ appid)
    ∧ (r.recommendForLiked liked top_n = .ok res' → ∀ c ∈ res', c.appid ∉ liked) := by
  constructor
  · intro h c hc
    rw [recommendSimilar_ok h] at hc
    obtain ⟨p, _, hne, _, hcand⟩ := mem_similarSurvivors.mp (mem_of_mem_take_sortDesc hc)
    intro hEq
    rw [hcand] at hEq
    exact hne ⟨rfl, hEq⟩
  · intro h c hc
    rw [recommendForLiked_ok h] at hc
    obtain ⟨p, _, hnot, _, hcand⟩ := mem_likedSurvivors.mp (mem_of_mem_take_sortDesc hc)
    intro hEq
    rw [hcand] at hEq
    exact hnot hEq

/-- C1 witness: on the example engine both queries succeed with a
non-empty result and the seed ids are absent from it. -/
theorem c1_witness :
    rEx.recommendSimilar 1 5 true = .ok [candEx]
    ∧ (∀ c ∈ [candEx], c.appid ≠ 1)
    ∧ rEx.recommendForLiked [1] 5 = .ok [candEx]
    ∧ (∀ c ∈ [candEx], c.appid ∉ [1]) :=
  ⟨rEx_similar_eval,
   (c1_no_seed_in_results rEx 1 [1] 5 [candEx] [candEx]).1 rEx_similar_eval,
   rEx_liked_eval,
   (c1_no_seed_in_results rEx 1 [1] 5 [candEx] [candEx]).2 rEx_liked_eval⟩

/-- C3: the genre filter keeps a candidate iff the reference set is empty
or the two sets intersect, and both entry points retain exactly the
candidates that pass their liked/self exclusion and this predicate. -/
theorem c3_genre_filter (ref cand : Finset String) (r : Recommender) (appid : Int)
    (es : Bool) (liked : List Int) (c : Candidate) :
    (genreKeep ref cand = true ↔ ref = ∅ ∨ (ref ∩ cand).Nonempty)
    ∧ (c ∈ r.similarSurvivors appid es ↔
        ∃ p ∈ r.similarNeighbors appid,
          ¬(es = true ∧ r.appids.getD p.2 0 = appid)
          ∧ ((r.genresOf appid).getD ∅ = ∅
              ∨ (((r.genresOf appid).getD ∅)
                  ∩ ((r.genresOf (r.appids.getD p.2 0)).getD ∅)).Nonempty)
          ∧ c = r.mkCand p.1 (r.appids.getD p.2 0))
    ∧ (c ∈ r.likedSurvivors liked ↔
        ∃ p ∈ r.likedNeighbors liked,
          r.appids.getD p.2 0 ∉ liked
          ∧ (r.likedGenresUnion liked = ∅
              ∨ ((r.likedGenresUnion liked)
                  ∩ ((r.genresOf (r.appids.getD p.2 0)).getD ∅)).Nonempty)
          ∧ c = r.mkCand p.1 (r.appids.getD p.2 0)) := by
  refine ⟨genreKeep_iff ref cand, ?_, ?_⟩
  · simp only [mem_similarSurvivors, genreKeep_iff]
  · simp only [mem_likedSurvivors, genreKeep_iff]

/-- C3 witness: the keep-predicate at concrete label sets, through both
directions of the characterization. -/
theorem c3_witness :
    genreKeep {"Action"} {"Action", "Indie"} = true ∧ genreKeep ∅ {"Puzzle"} = true :=
  ⟨(c3_genre_filter {"Action"} {"Action", "Indie"} rEx 1 true [] candEx).1.mpr
      (Or.inr (by decide)),
   (c3_genre_filter ∅ {"Puzzle"} rEx 1 true [] candEx).1.mpr (Or.inl rfl)⟩

/-- C6 counterexample: with `min = 0 < max = 1` the value 2 is scaled to 2,
which is outside `[0, 1]`, so `normalize` does not always return a float in
`[0, 1]` when `max > min`. -/
theorem c6_counterexample :
    normalize 2 0 1 (1/2) = 2 ∧ ¬ (normalize 2 0 1 (1/2) ≤ 1) := by
  norm_num [normalize]

/-- C6 (amended): `normalize` returns the default whenever `max ≤ min`;
otherwise it is exact linear min–max scaling, equal to 0 at `value = min`
and 1 at `value = max`, and its result lies in `[0, 1]` whenever
`min ≤ value ≤ max` (values outside that range scale outside `[0, 1]`). -/
theorem c6_normalize (v mn mx d : ℚ) :
    (mx ≤ mn → normalize v mn mx d = d)
    ∧ (mn < mx → normalize v mn mx d = (v - mn) / (mx - mn))
    ∧ (mn < mx → normalize mn mn mx d = 0 ∧ normalize mx mn mx d = 1)
    ∧ (mn < mx → mn ≤ v → v ≤ mx →
        0 ≤ normalize v mn mx d ∧ normalize v mn mx d ≤ 1) := by
  refine ⟨fun h => ?_, fun h => ?_, fun h => ⟨?_, ?_⟩, fun h hv1 hv2 => ⟨?_, ?_⟩⟩
  · simp [normalize, h]
  · rw [normalize, if_neg (not_le.mpr h)]
  · rw [normalize, if_neg (not_le.mpr h)]
    simp
  · rw [normalize, if_neg (not_le.mpr h)]
    exact div_self (sub_ne_zero.mpr (ne_of_gt h))
  · rw [normalize, if_neg (not_le.mpr h)]
    exact div_nonneg (by linarith) (by linarith)
  · rw [normalize, if_neg (not_le.mpr h)]
    rw [div_le_one (by linarith)]
    linarith

/-- C6 witness: a non-degenerate range with exact endpoint values. -/
theorem c6_witness :
    (0 : ℚ) < 2 ∧ normalize 0 0 2 (37/100) = 0 ∧ normalize 2 0 2 (37/100) = 1 :=
  ⟨by norm_num, (c6_normalize 1 0 2 (37/100)).2.2.1 (by norm_num)⟩

/-! ## Dictionary and resolution lemmas -/

theorem foldl_dictInsert_eq_none {α β : Type} (key : α → Int) (val : α → β)
    (l : List α) (m : Int → Option β) (a : Int) :
    (l.foldl (fun m x => dictInsert m (key x) (val x)) m) a = none
      ↔ m a = none ∧ ∀ x ∈ l, key x ≠ a := by
  induction l generalizing m with
  | nil => simp
  | cons x t ih =>
    rw [List.foldl_cons, ih]
    by_cases hax : a = key x
    · refine iff_of_false (fun h => ?_) (fun h => ?_)
      · rw [dictInsert, if_pos hax] at h
        cases h.1
      · exact h.2 x (List.mem_cons_self x t) hax.symm
    · rw [dictInsert, if_neg hax]
      have hax' : key x ≠ a := fun h => hax h.symm
      simp only [List.forall_mem_cons]
      tauto

theorem appidToIndex_eq_none_iff (appids : List Int) (a : Int) :
    appidToIndex appids a = none ↔ a ∉ appids := by
  unfold appidToIndex
  rw [foldl_dictInsert_eq_none (fun p : Nat × Int => p.2) (fun p : Nat × Int => p.1)
    appids.enum (fun _ => none) a]
  simp only [true_and]
  constructor
  · intro h hmem
    rw [← List.enum_map_snd appids] at hmem
    obtain ⟨x, hx, hxa⟩ := List.mem_map.mp hmem
    exact h x hx hxa
  · intro h x hx hxa
    refine h ?_
    rw [← List.enum_map_snd appids]
    exact List.mem_map.mpr ⟨x, hx, hxa⟩

theorem resolvedIndices_isEmpty_iff (r : Recommender) (liked : List Int) :
    (r.resolvedIndices liked).isEmpty = true ↔ ∀ a ∈ liked, r.idxOf a = none := by
  unfold Recommender.resolvedIndices
  rw [List.isEmpty_iff, List.filterMap_eq_nil_iff]
  simp

theorem recommendSimilar_error_iff (r : Recommender) (ap : Int) (tn : Nat) (es : Bool) :
    (∃ msg, r.recommendSimilar ap tn es = .error msg) ↔ r.idxOf ap = none := by
  unfold Recommender.recommendSimilar
  cases h : r.idxOf ap <;> simp

theorem recommendSimilar_ok_iff (r : Recommender) (ap : Int) (tn : Nat) (es : Bool) :
    (∃ res, r.recommendSimilar ap tn es = .ok res) ↔ (r.idxOf ap).isSome = true := by
  unfold Recommender.recommendSimilar
  cases h : r.idxOf ap <;> simp

theorem recommendForLiked_error_iff (r : Recommender) (liked : List Int) (tn : Nat) :
    (∃ msg, r.recommendForLiked liked tn = .error msg)
      ↔ (r.resolvedIndices liked).isEmpty = true := by
  unfold Recommender.recommendForLiked
  split_ifs with h <;> simp [h]

theorem recommendForLiked_ok_iff (r : Recommender) (liked : List Int) (tn : Nat) :
    (∃ res, r.recommendForLiked liked tn = .ok res)
      ↔ (r.resolvedIndices liked).isEmpty = false := by
  unfold Recommender.recommendForLiked
  split_ifs with h <;> simp [h]

/-- C5: `recommend_similar` raises exactly when the appid is not in the
loaded index; `recommend_for_liked` raises exactly when no liked id
resolves; in every other case both return a ranked list. -/
theorem c5_error_taxonomy (X : List (List ℚ)) (appids : List Int) (games : List GameRow)
    (hs ht : Bool) (lg : ℚ → ℚ) (knn : List ℚ → Nat → List (ℚ × Nat)) (k : Nat)
    (appid : Int) (liked : List Int) (top_n : Nat) (es : Bool) :
    ((∃ msg, (mkRecommender X appids games hs ht lg knn k).recommendSimilar appid top_n es
        = .error msg) ↔ appid ∉ appids)
    ∧ ((∃ res, (mkRecommender X appids games hs ht lg knn k).recommendSimilar appid top_n es
        = .ok res) ↔ appid ∈ appids)
    ∧ ((∃ msg, (mkRecommender X appids games hs ht lg knn k).recommendForLiked liked top_n
        = .error msg) ↔ ∀ a ∈ liked, a ∉ appids)
    ∧ ((∃ res, (mkRecommender X appids games hs ht lg knn k).recommendForLiked liked top_n
        = .ok res) ↔ ∃ a ∈ liked, a ∈ appids) := by
  have hidx : ∀ a : Int, (mkRecommender X appids games hs ht lg knn k).idxOf a
      = appidToIndex appids a := fun _ => rfl
  refine ⟨?_, ?_, ?_, ?_⟩
  · rw [recommendSimilar_error_iff, hidx, appidToIndex_eq_none_iff]
  · rw [recommendSimilar_ok_iff, hidx, Option.isSome_iff_ne_none]
    rw [ne_eq, appidToIndex_eq_none_iff, not_not]
  · rw [recommendForLiked_error_iff, resolvedIndices_isEmpty_iff]
    constructor
    · intro h a ha
      exact (appidToIndex_eq_none_iff appids a).mp (by rw [← hidx a]; exact h a ha)
    · intro h a ha
      rw [hidx a, appidToIndex_eq_none_iff]
      exact h a ha
  · rw [recommendForLiked_ok_iff]
    rw [Bool.eq_false_iff, ne_eq, resolvedIndices_isEmpty_iff]
    push_neg
    constructor
    · rintro ⟨a, ha, hsome⟩
      refine ⟨a, ha, ?_⟩
      have := (appidToIndex_eq_none_iff appids a).not.mp (by rw [← hidx a]; exact hsome)
      exact not_not.mp this
    · rintro ⟨a, ha, hmem⟩
      refine ⟨a, ha, ?_⟩
      rw [hidx a, ne_eq, appidToIndex_eq_none_iff]
      exact not_not.mpr hmem

/-- C5 witness: on the example engine, a known appid succeeds, an unknown
one errors, an all-unknown liked list errors and a resolvable one
succeeds. -/
theorem c5_witness :
    (∃ msg, rEx.recommendSimilar 99 5 true = .error msg)
    ∧ (∃ res, rEx.recommendSimilar 1 5 true = .ok res)
    ∧ (∃ msg, rEx.recommendForLiked [99] 5 = .error msg)
    ∧ (∃ res, rEx.recommendForLiked [1] 5 = .ok res) :=
  ⟨(c5_error_taxonomy [[1, 0], [0, 1]] [1, 2] [gA, gB] true true (fun _ => 0)
      (fun _ _ => [(0, 0), (1/3, 1)]) 2 99 [99] 5 true).1.mpr (by decide),
   (c5_error_taxonomy [[1, 0], [0, 1]] [1, 2] [gA, gB] true true (fun _ => 0)
      (fun _ _ => [(0, 0), (1/3, 1)]) 2 1 [99] 5 true).2.1.mpr (by decide),
   (c5_error_taxonomy [[1, 0], [0, 1]] [1, 2] [gA, gB] true true (fun _ => 0)
      (fun _ _ => [(0, 0), (1/3, 1)]) 2 99 [99] 5 true).2.2.1.mpr (by decide),
   (c5_error_taxonomy [[1, 0], [0, 1]] [1, 2] [gA, gB] true true (fun _ => 0)
      (fun _ _ => [(0, 0), (1/3, 1)]) 2 99 [1] 5 true).2.2.2.mpr ⟨1, by decide, by decide⟩⟩

/-! ## C7: reference genre set of `recommend_for_liked` -/

/-- Modelled from the spec (§4.5 step 5): the union of the genre sets of
exactly the resolved seed ids. -/
def resolvedGenresUnion (r : Recommender) (liked : List Int) : Finset String :=
  ((liked.filter (fun a => (r.idxOf a).isSome)).map
    (fun a => (r.genresOf a).getD ∅)).foldr (· ∪ ·) ∅

theorem mem_foldl_union {β : Type} (f : β → Finset String) (l : List β)
    (init : Finset String) (s : String) :
    s ∈ l.foldl (fun acc a => acc ∪ f a) init ↔ s ∈ init ∨ ∃ a ∈ l, s ∈ f a := by
  induction l generalizing init with
  | nil => simp
  | cons x t ih =>
    rw [List.foldl_cons, ih]
    simp [or_assoc]

theorem mem_foldr_union {β : Type} (f : β → Finset String) (l : List β) (s : String) :
    s ∈ (l.map f).foldr (· ∪ ·) ∅ ↔ ∃ a ∈ l, s ∈ f a := by
  induction l with
  | nil => simp
  | cons x t ih => simp [ih]

theorem mem_resolvedGenresUnion (r : Recommender) (liked : List Int) (s : String) :
    s ∈ resolvedGenresUnion r liked
      ↔ ∃ a ∈ liked, (r.idxOf a).isSome = true ∧ s ∈ (r.genresOf a).getD ∅ := by
  unfold resolvedGenresUnion
  rw [mem_foldr_union]
  simp [List.mem_filter, and_assoc]

/-- C7 counterexample: on an engine whose games table has a row (appid 5)
absent from the loaded feature matrix, `recommend_for_liked([1, 5], ·)`
succeeds, yet the reference genre set it passes to the genre filter is not
the union over the resolved seeds only — the unresolved id 5 contributes
its genre labels. -/
theorem c7_counterexample :
    (∃ res, rEx2.recommendForLiked [1, 5] 5 = .ok res)
    ∧ rEx2.likedGenresUnion [1, 5] ≠ resolvedGenresUnion rEx2 [1, 5] :=
  ⟨(recommendForLiked_ok_iff rEx2 [1, 5] 5).mpr (by decide), by decide⟩

/-- C7 (amended): the reference genre set equals the union over ALL liked
ids of their genre-table entries (ids absent from the genre table
contribute nothing); it equals the union over exactly the resolved seeds
whenever every liked id that is absent from the feature index is also
absent from the genre table — as holds when the feature bundle and games
table come from the same build. -/
theorem c7_liked_genres_union (r : Recommender) (liked : List Int) (s : String) :
    (s ∈ r.likedGenresUnion liked ↔ ∃ a ∈ liked, s ∈ (r.genresOf a).getD ∅)
    ∧ ((∀ a ∈ liked, r.idxOf a = none → r.genresOf a = none) →
        r.likedGenresUnion liked = resolvedGenresUnion r liked) := by
  constructor
  · unfold Recommender.likedGenresUnion
    rw [mem_foldl_union]
    simp
  · intro h
    apply Finset.ext
    intro x
    rw [mem_resolvedGenresUnion]
    unfold Recommender.likedGenresUnion
    rw [mem_foldl_union]
    simp only [Finset.not_mem_empty, false_or]
    constructor
    · rintro ⟨a, ha, hx⟩
      refine ⟨a, ha, ?_, hx⟩
      cases hidx : r.idxOf a with
      | none =>
        rw [h a ha hidx] at hx
        simp at hx
      | some i => rfl
    · rintro ⟨a, ha, _, hx⟩
      exact ⟨a, ha, hx⟩

/-- C7 witness: on the example engine, whose games table and feature index
cover the same appids, the amended equalities hold at concrete inputs. -/
theorem c7_witness :
    ("Action" ∈ rEx.likedGenresUnion [1]
        ↔ ∃ a ∈ ([1] : List Int), "Action" ∈ (rEx.genresOf a).getD ∅)
    ∧ rEx.likedGenresUnion [1] = resolvedGenresUnion rEx [1] :=
  ⟨(c7_liked_genres_union rEx [1] "Action").1,
   (c7_liked_genres_union rEx [1] "Action").2 (by decide)⟩

/-! ## C4: overall score, ranking and truncation -/

theorem sortDesc_sorted (l : List Candidate) :
    (sortDesc l).Pairwise (fun a b => b.overall_score ≤ a.overall_score) :=
  List.sorted_insertionSort candGe l

theorem sortDesc_perm (l : List Candidate) : List.Perm (sortDesc l) l :=
  List.perm_insertionSort candGe l

/-- C4: every returned candidate's overall score is
`3·similarity + 0.8·normalize(review_score_adj) + 0.9·normalize(review_volume_log)`
with `similarity = 1 − distance` and the normalization bounds computed over
the whole loaded catalog at construction; the result is the sorted-descending
list of surviving candidates truncated to `top_n` (possibly shorter). -/
theorem c4_score_and_ranking (X : List (List ℚ)) (appids : List Int) (games : List GameRow)
    (hs ht : Bool) (lg : ℚ → ℚ) (knn : List ℚ → Nat → List (ℚ × Nat)) (k : Nat)
    (appid : Int) (liked : List Int) (top_n : Nat) (es : Bool) (res res' : List Candidate) :
    ((mkRecommender X appids games hs ht lg knn k).recommendSimilar appid top_n es
        = .ok res →
      res.Pairwise (fun a b => b.overall_score ≤ a.overall_score)
      ∧ (∀ c ∈ res,
          c.similarity = 1 - c.distance
          ∧ c.overall_score = 3 * c.similarity
              + (4/5) * normalize c.score_adj (listMin (games.map (effScore hs)))
                  (listMax (games.map (effScore hs))) (1/2)
              + (9/10) * normalize c.vol_log (listMin (games.map (volLog lg ht)))
                  (listMax (games.map (volLog lg ht))) 0)
      ∧ res = (sortDesc ((mkRecommender X appids games hs ht lg knn k).similarSurvivors
          appid es)).take top_n
      ∧ res.length
          = min top_n ((mkRecommender X appids games hs ht lg knn k).similarSurvivors
              appid es).length)
    ∧ ((mkRecommender X appids games hs ht lg knn k).recommendForLiked liked top_n
        = .ok res' →
      res'.Pairwise (fun a b => b.overall_score ≤ a.overall_score)
      ∧ (∀ c ∈ res',
          c.similarity = 1 - c.distance
          ∧ c.overall_score = 3 * c.similarity
              + (4/5) * normalize c.score_adj (listMin (games.map (effScore hs)))
                  (listMax (games.map (effScore hs))) (1/2)
              + (9/10) * normalize c.vol_log (listMin (games.map (volLog lg ht)))
                  (listMax (games.map (volLog lg ht))) 0)
      ∧ res' = (sortDesc ((mkRecommender X appids games hs ht lg knn k).likedSurvivors
          liked)).take top_n
      ∧ res'.length
          = min top_n ((mkRecommender X appids games hs ht lg knn k).likedSurvivors
              liked).length) := by
  constructor
  · intro h
    have hres := recommendSimilar_ok h
    refine ⟨?_, ?_, hres, ?_⟩
    · rw [hres]
      exact (sortDesc_sorted _).sublist (List.take_sublist _ _)
    · intro c hc
      rw [hres] at hc
      obtain ⟨p, _, _, _, hcand⟩ := mem_similarSurvivors.mp (mem_of_mem_take_sortDesc hc)
      rw [hcand]
      exact ⟨rfl, rfl⟩
    · rw [hres, List.length_take, (sortDesc_perm _).length_eq]
  · intro h
    have hres := recommendForLiked_ok h
    refine ⟨?_, ?_, hres, ?_⟩
    · rw [hres]
      exact (sortDesc_sorted _).sublist (List.take_sublist _ _)
    · intro c hc
      rw [hres] at hc
      obtain ⟨p, _, _, _, hcand⟩ := mem_likedSurvivors.mp (mem_of_mem_take_sortDesc hc)
      rw [hcand]
      exact ⟨rfl, rfl⟩
    · rw [hres, List.length_take, (sortDesc_perm _).length_eq]

/-- C4 witness: on the example engine the produced candidate's stored
fields satisfy the scoring equation. -/
theorem c4_witness :
    candEx.similarity = 1 - candEx.distance
    ∧ candEx.overall_score = 3 * candEx.similarity
        + (4/5) * normalize candEx.score_adj (listMin ([gA, gB].map (effScore true)))
            (listMax ([gA, gB].map (effScore true))) (1/2)
        + (9/10) * normalize candEx.vol_log (listMin ([gA, gB].map (volLog (fun _ => 0) true)))
            (listMax ([gA, gB].map (volLog (fun _ => 0) true))) 0 :=
  ((c4_score_and_ranking [[1, 0], [0, 1]] [1, 2] [gA, gB] true true (fun _ => 0)
      (fun _ _ => [(0, 0), (1/3, 1)]) 2 1 [1] 5 true [candEx] [candEx]).1
    rEx_similar_eval).2.1 candEx (List.mem_cons_self candEx [])

/-! ## C10: no duplicate recommendations -/

theorem filterMap_appids_nodup (appids : List Int) (f : ℚ × Nat → Option Candidate)
    (neigh : List (ℚ × Nat))
    (hf : ∀ p c, f p = some c → c.appid = appids.getD p.2 0)
    (hnd : appids.Nodup)
    (h1 : (neigh.map Prod.snd).Nodup)
    (h2 : ∀ p ∈ neigh, p.2 < appids.length) :
    ((neigh.filterMap f).map Candidate.appid).Nodup := by
  induction neigh with
  | nil => simp
  | cons p t ih =>
    rw [List.map_cons, List.nodup_cons] at h1
    obtain ⟨hp2, ht2⟩ := h1
    have h2p := h2 p (List.mem_cons_self p t)
    have h2t : ∀ q ∈ t, q.2 < appids.length := fun q hq => h2 q (List.mem_cons_of_mem p hq)
    rw [List.filterMap_cons]
    cases hfp : f p with
    | none => exact ih ht2 h2t
    | some c =>
      rw [List.map_cons, List.nodup_cons]
      refine ⟨?_, ih ht2 h2t⟩
      intro hmem
      obtain ⟨c', hc', hcc⟩ := List.mem_map.mp hmem
      obtain ⟨q, hq, hfq⟩ := List.mem_filterMap.mp hc'
      have hq2 := h2t q hq
      have heq : appids.getD p.2 0 = appids.getD q.2 0 := by
        rw [← hf p c hfp, ← hf q c' hfq, hcc]
      rw [List.getD_eq_getElem appids 0 h2p, List.getD_eq_getElem appids 0 hq2] at heq
      have hget : appids.get ⟨p.2, h2p⟩ = appids.get ⟨q.2, hq2⟩ := by
        simpa [List.get_eq_getElem] using heq
      have hpq : p.2 = q.2 := congrArg Fin.val (hnd.get_inj_iff.mp hget)
      exact hp2 (hpq ▸ List.mem_map.mpr ⟨q, hq, rfl⟩)

/-- C10: when the loaded appid array has no duplicates and the neighbour
retrieval returns distinct in-range row indices, the results of both entry
points list each appid at most once. -/
theorem c10_distinct_results (r : Recommender) (appid : Int) (liked : List Int)
    (top_n : Nat) (es : Bool) (res res' : List Candidate)
    (hnd : r.appids.Nodup)
    (h1 : ((r.similarNeighbors appid).map Prod.snd).Nodup)
    (h2 : ∀ p ∈ r.similarNeighbors appid, p.2 < r.appids.length)
    (h3 : ((r.likedNeighbors liked).map Prod.snd).Nodup)
    (h4 : ∀ p ∈ r.likedNeighbors liked, p.2 < r.appids.length) :
    (r.recommendSimilar appid top_n es = .ok res → (res.map Candidate.appid).Nodup)
    ∧ (r.recommendForLiked liked top_n = .ok res' → (res'.map Candidate.appid).Nodup) := by
  constructor
  · intro h
    rw [recommendSimilar_ok h]
    have hsurv : ((r.similarSurvivors appid es).map Candidate.appid).Nodup := by
      refine filterMap_appids_nodup r.appids _ _ (fun p c hc => ?_) hnd h1 h2
      rw [(similarStep_eq_some.mp hc).2.2]
      rfl
    have hsorted : ((sortDesc (r.similarSurvivors appid es)).map Candidate.appid).Nodup :=
      ((sortDesc_perm _).map Candidate.appid).nodup_iff.mpr hsurv
    exact hsorted.sublist ((List.take_sublist _ _).map Candidate.appid)
  · intro h
    rw [recommendForLiked_ok h]
    have hsurv : ((r.likedSurvivors liked).map Candidate.appid).Nodup := by
      refine filterMap_appids_nodup r.appids _ _ (fun p c hc => ?_) hnd h3 h4
      rw [(likedStep_eq_some.mp hc).2.2]
      rfl
    have hsorted : ((sortDesc (r.likedSurvivors liked)).map Candidate.appid).Nodup :=
      ((sortDesc_perm _).map Candidate.appid).nodup_iff.mpr hsurv
    exact hsorted.sublist ((List.take_sublist _ _).map Candidate.appid)

/-- C10 witness: the example engine satisfies the hypotheses and yields a
duplicate-free result for both entry points. -/
theorem c10_witness :
    rEx.appids.Nodup
    ∧ ([candEx].map Candidate.appid).Nodup
    ∧ ([candEx].map Candidate.appid).Nodup :=
  ⟨by decide,
   (c10_distinct_results rEx 1 [1] 5 true [candEx] [candEx] (by decide) (by decide)
      (by decide) (by decide) (by decide)).1 rEx_similar_eval,
   (c10_distinct_results rEx 1 [1] 5 true [candEx] [candEx] (by decide) (by decide)
      (by decide) (by decide) (by decide)).2 rEx_liked_eval⟩

/-! ## C2: Bayesian-smoothed review score -/

/-- C2: `review_score_adj = (n/(n+500))·raw_ratio + (500/(n+500))·global_mean_ratio`
where the global mean ratio is the summed positive count over the summed
total count of the items with `review_total > 0` (0.5 when there are none),
items absent from the review table enter with ratio 0.5 and total 0, and
every item with `review_total = 0` scores exactly the global mean ratio. -/
theorem c2_bayesian_smoothing (games : List Int) (reviews : List ReviewRow) (a : Int)
    (_ha : a ∈ games) :
    reviewScoreAdj games reviews a
      = (mergedTotal reviews a / (mergedTotal reviews a + 500)) * mergedShare reviews a
        + (500 / (mergedTotal reviews a + 500)) * globalMean games reviews
    ∧ (findReview reviews a = none →
        mergedShare reviews a = 1/2 ∧ mergedTotal reviews a = 0)
    ∧ ((games.filter (fun x => 0 < mergedTotal reviews x)).isEmpty = true →
        globalMean games reviews = 1/2)
    ∧ ((games.filter (fun x => 0 < mergedTotal reviews x)).isEmpty = false →
        globalMean games reviews
          = ((games.filter (fun x => 0 < mergedTotal reviews x)).map
              (mergedPositive reviews)).sum
            / ((games.filter (fun x => 0 < mergedTotal reviews x)).map
              (mergedTotal reviews)).sum)
    ∧ (mergedTotal reviews a = 0 →
        reviewScoreAdj games reviews a = globalMean games reviews) := by
  refine ⟨rfl, ?_, ?_, ?_, ?_⟩
  · intro h
    unfold mergedShare mergedTotal
    rw [h]
    simp
  · intro h
    simp only [globalMean]
    rw [if_pos h]
  · intro h
    simp only [globalMean]
    rw [if_neg (by simp [h])]
    have hne : games.filter (fun x => 0 < mergedTotal reviews x) ≠ [] := by
      intro h0
      rw [h0] at h
      simp at h
    have hpos : 0 < ((games.filter (fun x => 0 < mergedTotal reviews x)).map
        (mergedTotal reviews)).sum := by
      apply List.sum_pos
      · intro q hq
        obtain ⟨x, hx, hxq⟩ := List.mem_map.mp hq
        have := List.of_mem_filter hx
        rw [← hxq]
        exact of_decide_eq_true this
      · simp [hne]
    rw [if_pos hpos]
  · intro h
    unfold reviewScoreAdj PRIOR_M
    rw [h]
    norm_num

/-- A concrete review summary row for the C2 witness. -/
def rvEx : ReviewRow := ⟨1, 30, 10, 40, 3/4⟩

/-- C2 witness: appid 2 is absent from the review table of a concrete
catalog, so its merged total is 0 and its smoothed score is exactly the
global mean ratio. -/
theorem c2_witness :
    mergedTotal [rvEx] 2 = 0
    ∧ reviewScoreAdj [1, 2] [rvEx] 2 = globalMean [1, 2] [rvEx] :=
  ⟨by decide, (c2_bayesian_smoothing [1, 2] [rvEx] 2 (by decide)).2.2.2.2 (by decide)⟩

/-! ## C8: numeric standardization -/

theorem sum_nonneg_all_zero (xs : List ℚ) (hnn : ∀ x ∈ xs, 0 ≤ x) (hsum : xs.sum = 0) :
    ∀ x ∈ xs, x = 0 := by
  induction xs with
  | nil => simp
  | cons y t ih =>
    rw [List.sum_cons] at hsum
    have hy : 0 ≤ y := hnn y (List.mem_cons_self y t)
    have ht : 0 ≤ t.sum :=
      List.sum_nonneg (fun x hx => hnn x (List.mem_cons_of_mem y hx))
    have hy0 : y = 0 := le_antisymm (by linarith) hy
    intro x hx
    rcases List.mem_cons.mp hx with h | h
    · rw [h, hy0]
    · exact ih (fun x hx => hnn x (List.mem_cons_of_mem y hx)) (by linarith) x h

theorem popVar_nonneg (xs : List ℚ) : 0 ≤ popVar xs := by
  unfold popVar
  apply div_nonneg
  · apply List.sum_nonneg
    intro q hq
    obtain ⟨x, _, hxq⟩ := List.mem_map.mp hq
    rw [← hxq]
    exact sq_nonneg _
  · exact_mod_cast Nat.zero_le _

theorem popVar_eq_zero_all_mean (xs : List ℚ) (hne : xs ≠ []) (h : popVar xs = 0) :
    ∀ x ∈ xs, x = colMean xs := by
  unfold popVar at h
  rw [div_eq_zero_iff] at h
  have hlen : (xs.length : ℚ) ≠ 0 :=
    Nat.cast_ne_zero.mpr (fun h0 => hne (List.length_eq_zero.mp h0))
  cases h with
  | inl hsum =>
    intro x hx
    have h2 : (x - colMean xs) ^ 2 = 0 :=
      sum_nonneg_all_zero _ (fun q hq => by
        obtain ⟨z, _, hzq⟩ := List.mem_map.mp hq
        rw [← hzq]
        exact sq_nonneg _) hsum _ (List.mem_map_of_mem _ hx)
    have h3 : x - colMean xs = 0 := pow_eq_zero_iff two_ne_zero |>.mp h2
    linarith
  | inr hlen0 => exact absurd hlen0 hlen

theorem rawCol_length (t : RawTable) (c : String) :
    (rawCol t c).length = t.rows.length := by
  unfold rawCol
  split_ifs <;> rw [List.length_map]

/-- C8: every configured numeric column is standardized independently —
each entry becomes (value − column mean) / column standard deviation, both
computed over the entire catalog — and a configured column absent from the
input is synthesized as an all-zero column before standardization. -/
theorem c8_numeric_standardization (t : RawTable) (c : String) (_hc : c ∈ numericCols)
    (i : Nat) (hi : i < t.rows.length) :
    (standardize (rawCol t c)).getD i 0
      = (qr ((rawCol t c).getD i 0) - qr (colMean (rawCol t c))) / popStd (rawCol t c)
    ∧ (c ∉ t.presentCols → rawCol t c = List.replicate t.rows.length 0) := by
  have hlen : (rawCol t c).length = t.rows.length := rawCol_length t c
  have hi' : i < (rawCol t c).length := by rw [hlen]; exact hi
  constructor
  · have hmap : i < (standardize (rawCol t c)).length := by
      unfold standardize
      rw [List.length_map]
      exact hi'
    rw [List.getD_eq_getElem _ _ hmap]
    unfold standardize
    rw [List.getElem_map, List.getD_eq_getElem _ _ hi']
    by_cases hvar : popVar (rawCol t c) = 0
    · have hne : rawCol t c ≠ [] := by
        intro h0
        rw [h0] at hi'
        simp at hi'
      have hx : (rawCol t c)[i] = colMean (rawCol t c) :=
        popVar_eq_zero_all_mean _ hne hvar _ (List.getElem_mem _)
      rw [hx]
      simp
    · have hpos : 0 < popVar (rawCol t c) :=
        lt_of_le_of_ne (popVar_nonneg _) (Ne.symm hvar)
      have hstd : popStd (rawCol t c) ≠ 0 := by
        unfold popStd
        rw [ne_eq, Real.sqrt_eq_zero']
        push_neg
        exact_mod_cast hpos
      unfold stdScale
      simp [hstd]
  · intro hnc
    unfold rawCol
    rw [if_neg hnc]
    exact List.map_const' t.rows 0

/-- An example raw catalog row for the builder witnesses. -/
def rgA : RawGame :=
  ⟨1, fun c => if c = "price_eur" then some 10 else none,
   some "Action", some "Single-player", some "Roguelike"⟩

/-- A second example raw catalog row. -/
def rgB : RawGame :=
  ⟨2, fun c => if c = "price_eur" then some 20 else none,
   some "Action;Indie", some "Multi-player", none⟩

/-- An example builder input table: two rows, only two numeric columns
present in the frame. -/
def tEx : RawTable := ⟨[rgA, rgB], ["price_eur", "metacritic_score"]⟩

/-- C8 witness: on the example table the standardization equation holds for
a present column, and the absent configured column `release_year` is
synthesized as an all-zero column. -/
theorem c8_witness :
    ((standardize (rawCol tEx "price_eur")).getD 0 0
        = (qr ((rawCol tEx "price_eur").getD 0 0)
            - qr (colMean (rawCol tEx "price_eur"))) / popStd (rawCol tEx "price_eur"))
    ∧ rawCol tEx "release_year" = List.replicate 2 0 :=
  ⟨(c8_numeric_standardization tEx "price_eur" (by decide) 0 (by decide)).1,
   (c8_numeric_standardization tEx "release_year" (by decide) 0 (by decide)).2 (by decide)⟩

/-! ## C9: feature bundle shape -/

theorem buildX_length (t : RawTable) : (buildX t).length = t.rows.length := by
  unfold buildX
  rw [List.length_map, List.length_range]

theorem buildX_getD (t : RawTable) (i : Nat) (hi : i < t.rows.length) :
    (buildX t).getD i []
      = (numericMatrix t).getD i []
        ++ ((genreMatrix t).getD i []).map qr
        ++ ((tagMatrix t).getD i []).map qr
        ++ ((catMatrix t).getD i []).map qr := by
  unfold buildX
  have hi' : i < ((List.range t.rows.length).map (fun i =>
      (numericMatrix t).getD i []
        ++ ((genreMatrix t).getD i []).map qr
        ++ ((tagMatrix t).getD i []).map qr
        ++ ((catMatrix t).getD i []).map qr)).length := by
    rw [List.length_map, List.length_range]
    exact hi
  rw [List.getD_eq_getElem _ _ hi', List.getElem_map, List.getElem_range]

theorem numericMatrix_getD_length (t : RawTable) (i : Nat) (hi : i < t.rows.length) :
    ((numericMatrix t).getD i []).length = numericCols.length := by
  unfold numericMatrix
  have hi' : i < ((List.range t.rows.length).map (fun i =>
      numericCols.map (fun c => (numericColW t c).getD i 0))).length := by
    rw [List.length_map, List.length_range]
    exact hi
  rw [List.getD_eq_getElem _ _ hi', List.getElem_map, List.length_map]

theorem indicatorBlock_getD_length (lists : List (List String)) (vocab : List String)
    (w : ℚ) (i : Nat) (hi : i < lists.length) :
    ((lists.map (fun ls => (indicator vocab ls).map (fun x => w * x))).getD i []).length
      = vocab.length := by
  have hi' : i < ((lists.map (fun ls =>
      (indicator vocab ls).map (fun x => w * x)))).length := by
    rw [List.length_map]
    exact hi
  rw [List.getD_eq_getElem _ _ hi', List.getElem_map, List.length_map]
  unfold indicator
  rw [List.length_map]

theorem genresLists_length (t : RawTable) : (genresLists t).length = t.rows.length := by
  unfold genresLists
  rw [List.length_map]

theorem tagsLists_length (t : RawTable) : (tagsLists t).length = t.rows.length := by
  unfold tagsLists
  rw [List.length_map]

theorem catsLists_length (t : RawTable) : (catsLists t).length = t.rows.length := by
  unfold catsLists
  rw [List.length_map]

theorem featureNames_length (t : RawTable) :
    (featureNames t).length
      = numericCols.length + (genreVocab t).length + (tagVocab t).length
        + (catVocab t).length := by
  unfold featureNames
  simp only [List.length_append, List.length_map]

/-- C9: the built feature matrix is the horizontal concatenation
numeric‖genre‖tag‖category in that column order; it has one row per appid
and every row's length equals the feature-name count. -/
theorem c9_feature_bundle_shape (t : RawTable) :
    (buildX t).length = (appidOrder t).length
    ∧ (∀ row ∈ buildX t, row.length = (featureNames t).length)
    ∧ (∀ i, i < t.rows.length →
        (buildX t).getD i []
          = (numericMatrix t).getD i []
            ++ ((genreMatrix t).getD i []).map qr
            ++ ((tagMatrix t).getD i []).map qr
            ++ ((catMatrix t).getD i []).map qr) := by
  refine ⟨?_, ?_, fun i hi => buildX_getD t i hi⟩
  · rw [buildX_length]
    unfold appidOrder
    rw [List.length_map]
  · intro row hrow
    unfold buildX at hrow
    obtain ⟨i, hi, hrow⟩ := List.mem_map.mp hrow
    rw [List.mem_range] at hi
    subst hrow
    simp only [List.length_append, List.length_map]
    rw [numericMatrix_getD_length t i hi]
    rw [show genreMatrix t = (genresLists t).map (fun ls =>
        (indicator (genreVocab t) ls).map (fun x => GENRE_WEIGHT * x)) from rfl] at *
    rw [indicatorBlock_getD_length (genresLists t) (genreVocab t) GENRE_WEIGHT i
      (by rw [genresLists_length]; exact hi)]
    rw [show tagMatrix t = (tagsLists t).map (fun ls =>
        (indicator (tagVocab t) ls).map (fun x => TAG_WEIGHT * x)) from rfl]
    rw [indicatorBlock_getD_length (tagsLists t) (tagVocab t) TAG_WEIGHT i
      (by rw [tagsLists_length]; exact hi)]
    rw [show catMatrix t = (catsLists t).map (fun ls =>
        (indicator (catVocab t) ls).map (fun x => CAT_WEIGHT * x)) from rfl]
    rw [indicatorBlock_getD_length (catsLists t) (catVocab t) CAT_WEIGHT i
      (by rw [catsLists_length]; exact hi)]
    rw [featureNames_length]

/-- C9 witness: concrete shape facts on the example table. -/
theorem c9_witness :
    (buildX tEx).length = (appidOrder tEx).length
    ∧ (buildX tEx).getD 0 []
        = (numericMatrix tEx).getD 0 []
          ++ ((genreMatrix tEx).getD 0 []).map qr
          ++ ((tagMatrix tEx).getD 0 []).map qr
          ++ ((catMatrix tEx).getD 0 []).map qr :=
  ⟨(c9_feature_bundle_shape tEx).1, (c9_feature_bundle_shape tEx).2.2 0 (by decide)⟩

end SteamRec
